import Mathlib

/-!
Verification of the Verilator C++ harness `sim/rtl_dump_main.cpp`
(cycle-driven AXI4-Stream / AXI4-Lite testbench for an RGB pipeline).

The embedding follows the source file closely:
* byte buffers model `std::vector<uint8_t>` (stores truncate to 8 bits);
* the DUT is an opaque record of settable input pins, gettable output
  pins (as latched by the last `eval()` call), and an `eval` transition;
* the main simulation loop, the producer / consumer blocks inside it,
  the reset sequence and `configure_kernel` are translated statement by
  statement, with C `for`/`while` loops rendered as fuel-indexed
  recursion (the fuel is always large enough to reproduce the C
  behaviour, because the loop bodies strictly increase a bounded
  counter).
All machine integers in the source stay far below the range of their types
(values < 2^24 in 32-bit ints), so they are modelled as `Nat`; the only
place truncation can matter, the `uint8_t` element writes, carries an
explicit `% 256`.
-/

set_option maxRecDepth 100000
set_option linter.unusedVariables false

namespace ISP

/-- Image width constant from `rtl_dump_main.cpp` line 13. -/
def IMAGE_WIDTH : Nat := 640

/-- Image height constant from `rtl_dump_main.cpp` line 14. -/
def IMAGE_HEIGHT : Nat := 480

/-- Total pixel count `IMAGE_WIDTH * IMAGE_HEIGHT` (= 307200). -/
def NPIX : Nat := IMAGE_WIDTH * IMAGE_HEIGHT

/-- Models `std::vector<uint8_t>`: a length plus the byte stored at each
index.  Out-of-range reads are total here (the harness never performs
one on the vectors it allocates). -/
structure Buf where
  size : Nat
  get : Nat → Nat

/-- An element store `v[i] = x`; the element type `uint8_t` truncates the
stored value to 8 bits. -/
def Buf.set (b : Buf) (i v : Nat) : Buf :=
  { size := b.size, get := fun j => if j = i then v % 256 else b.get j }

/-- Models `std::vector<uint8_t>(n)`: n value-initialized (zero) bytes. -/
def Buf.zeros (n : Nat) : Buf :=
  { size := n, get := fun _ => 0 }

/-- A counted C-style `for` loop: `forN f i rem b` runs the body `f` on
indices `i, i+1, ..., i+rem-1` in order, threading the buffer through. -/
def forN (f : Nat → Buf → Buf) : Nat → Nat → Buf → Buf
  | _, 0, b => b
  | i, rem + 1, b => forN f (i + 1) rem (f i b)

/-- Body of the inner loop of `generate_test_pattern`
(`rtl_dump_main.cpp` lines 25-30): three byte stores at `idx`,
`idx+1`, `idx+2`. -/
def writePixel (y x : Nat) (b : Buf) : Buf :=
  let idx := (y * IMAGE_WIDTH + x) * 3
  ((b.set (idx + 0) (x * 255 / IMAGE_WIDTH)).set
      (idx + 1) (y * 255 / IMAGE_HEIGHT)).set
    (idx + 2) ((x + y) * 255 / (IMAGE_WIDTH + IMAGE_HEIGHT))

/-- The function `generate_test_pattern` (`rtl_dump_main.cpp` lines 22-33): the nested
row/column loops over `writePixel`. -/
def generate_test_pattern (b : Buf) : Buf :=
  forN (fun y => forN (writePixel y) 0 IMAGE_WIDTH) 0 IMAGE_HEIGHT b

/-- The input image of `main` (`rtl_dump_main.cpp` lines 92-93): a
`W*H*3`-byte vector filled by `generate_test_pattern`. -/
def input_image : Buf :=
  generate_test_pattern (Buf.zeros (IMAGE_WIDTH * IMAGE_HEIGHT * 3))

/-- The channel byte the pattern generator stores for channel `c` of
pixel `(x, y)` (before the `uint8_t` truncation). -/
def patByte (y x c : Nat) : Nat :=
  if c = 0 then x * 255 / IMAGE_WIDTH
  else if c = 1 then y * 255 / IMAGE_HEIGHT
  else (x + y) * 255 / (IMAGE_WIDTH + IMAGE_HEIGHT)

/-! ## The DUT interface and the harness state -/
/-- Input pins of the DUT, driven by the harness (the pin names of
`Vaxi4s_rgb_dw_pw_top` the source assigns). -/
structure DutIn where
  clk : Bool
  rst_n : Bool
  s_axi_aclk : Bool
  s_axi_aresetn : Bool
  s_axi_awaddr : Nat
  s_axi_awvalid : Bool
  s_axi_wdata : Nat
  s_axi_wvalid : Bool
  s_axi_wstrb : Nat
  s_axis_tdata : Nat
  s_axis_tvalid : Bool
  s_axis_tlast : Bool
  s_axis_tuser : Nat
  m_axis_tready : Bool

/-- Output pins of the DUT, read by the harness: the values latched by
the most recent `eval()` call. -/
structure DutOut where
  s_axi_awready : Bool
  s_axi_wready : Bool
  s_axis_tready : Bool
  m_axis_tvalid : Bool
  m_axis_tdata : Nat
  m_axis_tuser : Nat

/-- The opaque DUT: hidden state `σ` plus the `eval()` transition, which
reads the current input pins and yields new hidden state and output
pins.  The harness treats the DUT purely as this black box. -/
structure Dut (σ : Type) where
  eval : DutIn → σ → σ × DutOut

/-- Verilator zero-initializes model state before the first `eval`. -/
def DutIn.init : DutIn :=
  { clk := false, rst_n := false, s_axi_aclk := false, s_axi_aresetn := false
    s_axi_awaddr := 0, s_axi_awvalid := false, s_axi_wdata := 0
    s_axi_wvalid := false, s_axi_wstrb := 0
    s_axis_tdata := 0, s_axis_tvalid := false, s_axis_tlast := false
    s_axis_tuser := 0, m_axis_tready := false }

/-- Zero-initialized output pins (values before the first `eval`). -/
def DutOut.init : DutOut :=
  { s_axi_awready := false, s_axi_wready := false, s_axis_tready := false
    m_axis_tvalid := false, m_axis_tdata := 0, m_axis_tuser := 0 }

/-- The harness state inside the main simulation loop: the pins it
drives, the DUT outputs latched by the last `eval()`, the hidden DUT
state, the simulation variables of `main` lines 99-102, and the output
image.  `out_count` is a history (ghost) variable counting accepted
output transfers; it instruments the consumer branch and influences
nothing. -/
structure SimState (σ : Type) where
  pins : DutIn
  outs : DutOut
  dutSt : σ
  pixel_count : Nat
  cycle_count : Nat
  input_active : Bool
  output_active : Bool
  output_image : Buf
  out_count : Nat

/-! ## The phases of one loop iteration -/
/-- Clock generation (lines 115-116). -/
def clockPhase (s : SimState σ) : SimState σ :=
  { s with pins :=
      { s.pins with clk := !s.pins.clk, s_axi_aclk := !s.pins.s_axi_aclk } }

/-- Input side (lines 119-148): offer the next pixel when the producer
is idle, or retire a completed handshake.  The conditions read the
`tready` output latched by the previous `eval()`, exactly as the C++
reads `dut->s_axis_tready` before the `eval()` of this iteration. -/
def inputSide (input_image : Buf) (s : SimState σ) : SimState σ :=
  if s.input_active = true ∧ s.pixel_count < IMAGE_WIDTH * IMAGE_HEIGHT then
    if s.pins.s_axis_tvalid = false ∨
        (s.pins.s_axis_tvalid = true ∧ s.outs.s_axis_tready = true) then
      let pixel_idx := s.pixel_count * 3
      let rgb_data :=
        ((input_image.get (pixel_idx + 2)) <<< 16) |||
          ((input_image.get (pixel_idx + 1)) <<< 8) ||| input_image.get (pixel_idx + 0)
      { s with
        pins := { s.pins with
          s_axis_tdata := rgb_data % 2 ^ 32
          s_axis_tvalid := true
          s_axis_tlast := decide ((s.pixel_count + 1) % IMAGE_WIDTH = 0)
          s_axis_tuser := s.pixel_count % IMAGE_WIDTH }
        pixel_count := s.pixel_count + 1
        input_active := false }
    else s
  else if s.pins.s_axis_tvalid = true ∧ s.outs.s_axis_tready = true then
    { s with
      pins := { s.pins with s_axis_tvalid := false, s_axis_tlast := false }
      input_active := true }
  else s

/-- The destination pixel index the consumer derives from the output
side-channel metadata (lines 159-160). -/
def out_pixel (tuser : Nat) : Nat :=
  (tuser * IMAGE_WIDTH + (tuser + 1) % IMAGE_WIDTH) % (IMAGE_WIDTH * IMAGE_HEIGHT)

/-- Output side (lines 151-170): on an accepted output transfer, unpack
the data word and store the three channel bytes at the derived index
when it is in bounds. -/
def outputSide (s : SimState σ) : SimState σ :=
  if s.outs.m_axis_tvalid = true ∧ s.pins.m_axis_tready = true then
    let output_data := s.outs.m_axis_tdata
    let r := output_data &&& 0xFF
    let g := (output_data >>> 8) &&& 0xFF
    let b := (output_data >>> 16) &&& 0xFF
    let op := out_pixel s.outs.m_axis_tuser
    let img :=
      if op < IMAGE_WIDTH * IMAGE_HEIGHT then
        let out_idx := op * 3
        ((s.output_image.set (out_idx + 0) r).set (out_idx + 1) g).set (out_idx + 2) b
      else s.output_image
    { s with output_image := img, output_active := true, out_count := s.out_count + 1 }
  else s

/-- Evaluate the DUT and advance the cycle counter (lines 173-176); the
trace dump and the progress printout are observational only. -/
def evalPhase (d : Dut σ) (s : SimState σ) : SimState σ :=
  let r := d.eval s.pins s.dutSt
  { s with dutSt := r.1, outs := r.2, cycle_count := s.cycle_count + 1 }

/-- One iteration of the main simulation loop body (lines 113-183), in
the fixed order of the source: clock toggle, input side, output side,
`eval()`, cycle increment. -/
def simStep (d : Dut σ) (img : Buf) (s : SimState σ) : SimState σ :=
  evalPhase d (outputSide (inputSide img (clockPhase s)))

/-- The loop guard of line 113. -/
def loopGuard (s : SimState σ) : Prop :=
  s.pixel_count < IMAGE_WIDTH * IMAGE_HEIGHT ∧ s.cycle_count < 1000000

instance (s : SimState σ) : Decidable (loopGuard s) := by
  unfold loopGuard; infer_instance

/-- The main simulation loop (line 113): run the body while the guard
holds.  `fuel` bounds the recursion; since every iteration increments
`cycle_count` and the guard requires `cycle_count < 1000000`, fuel
1000000 reproduces the C `while` exactly from a zero cycle count. -/
def simLoop (d : Dut σ) (img : Buf) : Nat → SimState σ → SimState σ
  | 0, s => s
  | fuel + 1, s => if loopGuard s then simLoop d img fuel (simStep d img s) else s

/-! ## The pre-loop part of main: reset and kernel configuration -/
/-- Iterate a function `n` times. -/
def iterN (f : α → α) : Nat → α → α
  | 0, a => a
  | n + 1, a => iterN f n (f a)

/-- One iteration of the reset loop (lines 78-83): toggle both clocks
and `eval()`. -/
def resetStep (d : Dut σ) (p : DutIn × σ × DutOut) : DutIn × σ × DutOut :=
  let pins := { p.1 with clk := !p.1.clk, s_axi_aclk := !p.1.s_axi_aclk }
  let r := d.eval pins p.2.1
  (pins, r.1, r.2)

/-- The wait loop of `configure_kernel` (lines 47-49): spin on `eval()`,
with no clock toggling, until both write-ready outputs are observed
asserted in the same step.  `fuel` bounds the spin (the C++ loop is
unbounded; every theorem that needs the spin to finish assumes the
readiness is observed within the fuel). -/
def waitWriteReady (d : Dut σ) (pins : DutIn) : Nat → σ × DutOut → σ × DutOut
  | 0, p => p
  | fuel + 1, p =>
      if p.2.s_axi_awready = true ∧ p.2.s_axi_wready = true then p
      else waitWriteReady d pins fuel (d.eval pins p.1)

/-- The pin values `configure_kernel` drives before its wait loop
(lines 40-44): write address 0x00 for `kernel_00`, the coefficient on
the write-data port, both valids and a full write-strobe mask. -/
def cfgPins (p1 : DutIn) (k00 : Nat) : DutIn :=
  { p1 with
    s_axi_awaddr := 0x00
    s_axi_awvalid := true
    s_axi_wdata := k00
    s_axi_wvalid := true
    s_axi_wstrb := 0xF }

/-- The function `configure_kernel` (lines 36-56): drive a single AXI4-Lite write of
the first coefficient `k00`; the remaining eight coefficients are
accepted as parameters but never used, exactly as in the source.  The
coefficient parameters are `uint8_t`, so callers pass byte values. -/
def configure_kernel (d : Dut σ) (fuel : Nat)
    (k00 k01 k02 k10 k11 k12 k20 k21 k22 : Nat)
    (p : DutIn × σ × DutOut) : DutIn × σ × DutOut :=
  let pins := cfgPins p.1 k00
  let r := waitWriteReady d pins fuel (p.2.1, p.2.2)
  ({ pins with s_axi_awvalid := false, s_axi_wvalid := false }, r.1, r.2)

/-- Lines 72-83: explicit pin initialization and the ten-step reset
sequence, from the zero-initialized Verilator model state. -/
def afterReset (d : Dut σ) (s0 : σ) : DutIn × σ × DutOut :=
  iterN (resetStep d) 10 (DutIn.init, s0, DutOut.init)

/-- Lines 85-89: release both resets, then `configure_kernel`.  The call
of line 89 converts the `int` coefficients to `uint8_t`, so `-1`
arrives as `255`.  `cf` is the spin fuel for the wait loop. -/
def afterConfig (d : Dut σ) (s0 : σ) (cf : Nat) : DutIn × σ × DutOut :=
  configure_kernel d cf 0 255 0 255 4 255 0 255 0
    ({ (afterReset d s0).1 with rst_n := true, s_axi_aresetn := true },
      (afterReset d s0).2.1, (afterReset d s0).2.2)

/-- The pre-loop part of `main` (lines 58-110): reset, configuration,
the image allocations, the simulation variables of lines 99-102 and the
stream signal initialization of lines 105-108. -/
def loopInit (d : Dut σ) (s0 : σ) (cf : Nat) : SimState σ :=
  { pins := { (afterConfig d s0 cf).1 with
      s_axis_tvalid := false, s_axis_tlast := false, s_axis_tuser := 0
      m_axis_tready := true }
    outs := (afterConfig d s0 cf).2.2
    dutSt := (afterConfig d s0 cf).2.1
    pixel_count := 0
    cycle_count := 0
    input_active := true
    output_active := false
    output_image := Buf.zeros (IMAGE_WIDTH * IMAGE_HEIGHT * 3)
    out_count := 0 }

/-- The function `main` from loop entry to loop exit (lines 113-183). -/
def mainRun (d : Dut σ) (s0 : σ) (cf : Nat) : SimState σ :=
  simLoop d input_image 1000000 (loopInit d s0 cf)

/-- Iterating the loop body a fixed number of times (used to relate
`simLoop` to its step-by-step trace). -/
def stepN (d : Dut σ) (img : Buf) : Nat → SimState σ → SimState σ
  | 0, s => s
  | n + 1, s => stepN d img n (simStep d img s)

/-- The producer handshake invariant: the producer is in its idle-offer
state exactly when the input valid pin is deasserted. -/
def producerInv (s : SimState σ) : Prop :=
  s.input_active = (!s.pins.s_axis_tvalid)

/-! ## Kernel configuration (C6) -/
/-- The state of the configuration spin after `n` bare `eval()` calls
with the configured pins held constant. -/
def spinSt (d : Dut σ) (pins : DutIn) : Nat → σ × DutOut → σ × DutOut
  | 0, q => q
  | n + 1, q => spinSt d pins n (d.eval pins q.1)

/-! ## Concrete DUT test doubles -/
/-- A combinational identity pass-through DUT: always ready on the
configuration port, mirrors the input stream onto the output stream in
the same evaluation step (data and user metadata preserved), and feeds
the consumer-side ready straight back as producer-side ready.  Every
accepted input transfer reappears unchanged on the output port, so this
is an identity DUT in the sense of the spec. -/
def wireDut : Dut Unit :=
  { eval := fun i _ =>
      ((), { s_axi_awready := true, s_axi_wready := true
             s_axis_tready := i.m_axis_tready
             m_axis_tvalid := i.s_axis_tvalid
             m_axis_tdata := i.s_axis_tdata
             m_axis_tuser := i.s_axis_tuser }) }

/-- A stub DUT: always ready, never asserts output valid. -/
def stubDut : Dut Unit :=
  { eval := fun i _ =>
      ((), { s_axi_awready := true, s_axi_wready := true
             s_axis_tready := true
             m_axis_tvalid := false, m_axis_tdata := 0, m_axis_tuser := 0 }) }

/-- The state at the start of even iteration `2k` of the wireDut run. -/
def wireEven (k : Nat) (s : SimState Unit) : Prop :=
  s.pixel_count = k ∧ s.cycle_count = 2 * k ∧ s.input_active = true ∧
  s.pins.s_axis_tvalid = false ∧ s.pins.m_axis_tready = true ∧
  s.outs.m_axis_tvalid = false ∧ s.out_count = k ∧
  s.output_image.get 3841 = 0

/-- The state at the start of odd iteration `2k+1` of the wireDut run. -/
def wireOdd (k : Nat) (s : SimState Unit) : Prop :=
  s.pixel_count = k + 1 ∧ s.cycle_count = 2 * k + 1 ∧ s.input_active = false ∧
  s.pins.s_axis_tvalid = true ∧ s.pins.m_axis_tready = true ∧
  s.pins.s_axis_tuser = k % IMAGE_WIDTH ∧
  s.outs.m_axis_tvalid = true ∧ s.outs.s_axis_tready = true ∧
  s.outs.m_axis_tuser = k % IMAGE_WIDTH ∧ s.out_count = k ∧
  s.output_image.get 3841 = 0

/-! ## Concrete states for the witness theorems -/
/-- A concrete harness state with an output transfer pending (latched
output valid high, data 0x030201, column 0) and the producer idle. -/
def demoState : SimState Unit :=
  { pins := { DutIn.init with m_axis_tready := true }
    outs := { DutOut.init with
      m_axis_tvalid := true, m_axis_tdata := 0x030201, m_axis_tuser := 0 }
    dutSt := ()
    pixel_count := 0
    cycle_count := 0
    input_active := true
    output_active := false
    output_image := Buf.zeros (IMAGE_WIDTH * IMAGE_HEIGHT * 3)
    out_count := 0 }

/-- A concrete harness state after all pixels have been offered. -/
def doneState : SimState Unit :=
  { demoState with pixel_count := 307200 }

/-- A concrete harness state with an input offer pending and the DUT
not ready. -/
def pendingState : SimState Unit :=
  { demoState with
    input_active := false
    pins := { demoState.pins with s_axis_tvalid := true, s_axis_tdata := 77 }
    outs := { demoState.outs with s_axis_tready := false } }

@[simp] theorem Buf.get_set (b : Buf) (i v j : Nat) :
    (b.set i v).get j = if j = i then v % 256 else b.get j := rfl

@[simp] theorem Buf.size_set (b : Buf) (i v : Nat) :
    (b.set i v).size = b.size := rfl

@[simp] theorem Buf.get_zeros (n j : Nat) : (Buf.zeros n).get j = 0 := rfl

@[simp] theorem Buf.size_zeros (n : Nat) : (Buf.zeros n).size = n := rfl

theorem forN_get_frame (f : Nat → Buf → Buf) (j : Nat) :
    ∀ rem i b, (∀ k b', i ≤ k → k < i + rem → (f k b').get j = b'.get j) →
      (forN f i rem b).get j = b.get j := by
  intro rem
  induction rem with
  | zero => intro i b _; rfl
  | succ n ih =>
      intro i b hf
      show (forN f (i + 1) n (f i b)).get j = b.get j
      rw [ih (i + 1) (f i b) (fun k b' hk1 hk2 => hf k b' (by omega) (by omega))]
      exact hf i b (Nat.le_refl i) (by omega)

theorem forN_size (f : Nat → Buf → Buf) (h : ∀ k b, (f k b).size = b.size) :
    ∀ rem i b, (forN f i rem b).size = b.size := by
  intro rem
  induction rem with
  | zero => intro i b; rfl
  | succ n ih => intro i b; show (forN f (i+1) n (f i b)).size = b.size; rw [ih, h]

theorem writePixel_size (y x : Nat) (b : Buf) : (writePixel y x b).size = b.size := rfl

theorem writePixel_get_other (y x : Nat) (b : Buf) (j : Nat)
    (h0 : j ≠ (y * IMAGE_WIDTH + x) * 3) (h1 : j ≠ (y * IMAGE_WIDTH + x) * 3 + 1)
    (h2 : j ≠ (y * IMAGE_WIDTH + x) * 3 + 2) :
    (writePixel y x b).get j = b.get j := by
  simp [writePixel, h0, h1, h2]

theorem writePixel_get_self (y x c : Nat) (hc : c < 3) (b : Buf) :
    (writePixel y x b).get ((y * IMAGE_WIDTH + x) * 3 + c) = patByte y x c % 256 := by
  interval_cases c <;> simp [writePixel, patByte]

/-- Pixel byte addresses are injective in `(y, x, c)` for in-range
columns and channels. -/
theorem pixAddr_inj {y x c y' x' c' : Nat} (hx : x < IMAGE_WIDTH) (hx' : x' < IMAGE_WIDTH)
    (hc : c < 3) (hc' : c' < 3)
    (h : (y' * IMAGE_WIDTH + x') * 3 + c' = (y * IMAGE_WIDTH + x) * 3 + c) :
    y' = y ∧ x' = x ∧ c' = c := by
  simp only [IMAGE_WIDTH] at *
  omega

theorem row_get (y x c : Nat) (hc : c < 3) :
    ∀ rem x0 b, x0 ≤ x → x < x0 + rem →
      (forN (writePixel y) x0 rem b).get ((y * IMAGE_WIDTH + x) * 3 + c) =
        patByte y x c % 256 := by
  intro rem
  induction rem with
  | zero => intro x0 b h1 h2; omega
  | succ n ih =>
      intro x0 b h1 h2
      show (forN (writePixel y) (x0 + 1) n (writePixel y x0 b)).get _ = _
      rcases Nat.eq_or_lt_of_le h1 with heq | hlt
      · subst heq
        rw [forN_get_frame]
        · exact writePixel_get_self y x0 c hc b
        · intro k b' hk1 hk2
          apply writePixel_get_other <;>
            · intro hj
              simp only [IMAGE_WIDTH] at hj
              omega
      · exact ih (x0 + 1) (writePixel y x0 b) hlt (by omega)

theorem row_get_frame (y' : Nat) (j : Nat)
    (hj : ∀ x' c', x' < IMAGE_WIDTH → c' < 3 → j ≠ (y' * IMAGE_WIDTH + x') * 3 + c') :
    ∀ b, (forN (writePixel y') 0 IMAGE_WIDTH b).get j = b.get j := by
  intro b
  apply forN_get_frame
  intro k b' hk1 hk2
  apply writePixel_get_other
  · simpa using hj k 0 (by omega) (by omega)
  · exact hj k 1 (by omega) (by omega)
  · exact hj k 2 (by omega) (by omega)

theorem generate_get (y x c : Nat) (hy : y < IMAGE_HEIGHT) (hx : x < IMAGE_WIDTH)
    (hc : c < 3) (b : Buf) :
    (generate_test_pattern b).get ((y * IMAGE_WIDTH + x) * 3 + c) =
      patByte y x c % 256 := by
  show (forN (fun y => forN (writePixel y) 0 IMAGE_WIDTH) 0 IMAGE_HEIGHT b).get _ = _
  have main : ∀ rem y0 b, y0 ≤ y → y < y0 + rem →
      (forN (fun y => forN (writePixel y) 0 IMAGE_WIDTH) y0 rem b).get
        ((y * IMAGE_WIDTH + x) * 3 + c) = patByte y x c % 256 := by
    intro rem
    induction rem with
    | zero => intro y0 b h1 h2; omega
    | succ n ih =>
        intro y0 b h1 h2
        show (forN _ (y0 + 1) n (forN (writePixel y0) 0 IMAGE_WIDTH b)).get _ = _
        rcases Nat.eq_or_lt_of_le h1 with heq | hlt
        · subst heq
          rw [forN_get_frame]
          · exact row_get y0 x c hc IMAGE_WIDTH 0 b (Nat.zero_le x) (by omega)
          · intro k b' hk1 hk2
            show (forN (writePixel k) 0 IMAGE_WIDTH b').get _ = b'.get _
            apply row_get_frame
            intro x' c' hx' hc' hj
            have := pixAddr_inj hx hx' hc hc' hj.symm
            omega
        · exact ih (y0 + 1) (forN (writePixel y0) 0 IMAGE_WIDTH b) hlt (by omega)
  exact main IMAGE_HEIGHT 0 b (Nat.zero_le y) (by omega)

theorem generate_size (b : Buf) : (generate_test_pattern b).size = b.size :=
  forN_size (fun y => forN (writePixel y) 0 IMAGE_WIDTH)
    (fun k b' => forN_size (writePixel k) (fun _ _ => rfl) IMAGE_WIDTH 0 b')
    IMAGE_HEIGHT 0 b

theorem generate_get_beyond (b : Buf) (j : Nat) (hj : IMAGE_WIDTH * IMAGE_HEIGHT * 3 ≤ j) :
    (generate_test_pattern b).get j = b.get j := by
  apply forN_get_frame
  intro k b' hk1 hk2
  show (forN (writePixel k) 0 IMAGE_WIDTH b').get _ = b'.get _
  apply row_get_frame
  intro x' c' hx' hc' hje
  subst hje
  simp only [IMAGE_WIDTH, IMAGE_HEIGHT] at *
  omega

theorem patByte_lt_256 (y x c : Nat) (hy : y < IMAGE_HEIGHT) (hx : x < IMAGE_WIDTH) :
    patByte y x c < 256 := by
  simp only [patByte, IMAGE_WIDTH, IMAGE_HEIGHT] at *
  split
  · omega
  · split
    · omega
    · omega

/-- Claim C10: the frame source fills a buffer of exactly `W*H*3` bytes
and for every pixel `(x, y)` with `x < W`, `y < H` sets
`R = x*255/W`, `G = y*255/H`, `B = (x+y)*255/(W+H)` with truncating
integer division; bytes outside the pixel region are untouched (no
other side effects), and the result is a pure function of the
dimensions. -/
theorem C10_test_pattern (x y : Nat) (hx : x < IMAGE_WIDTH) (hy : y < IMAGE_HEIGHT) :
    input_image.size = IMAGE_WIDTH * IMAGE_HEIGHT * 3 ∧
    input_image.get ((y * IMAGE_WIDTH + x) * 3) = x * 255 / IMAGE_WIDTH ∧
    input_image.get ((y * IMAGE_WIDTH + x) * 3 + 1) = y * 255 / IMAGE_HEIGHT ∧
    input_image.get ((y * IMAGE_WIDTH + x) * 3 + 2) =
      (x + y) * 255 / (IMAGE_WIDTH + IMAGE_HEIGHT) ∧
    (∀ j, IMAGE_WIDTH * IMAGE_HEIGHT * 3 ≤ j → input_image.get j = 0) := by
  refine ⟨generate_size _, ?_, ?_, ?_, fun j hj => generate_get_beyond _ j hj⟩
  · have h := generate_get y x 0 hy hx (by omega) (Buf.zeros (IMAGE_WIDTH * IMAGE_HEIGHT * 3))
    rw [Nat.add_zero] at h
    have h2 : patByte y x 0 = x * 255 / IMAGE_WIDTH := rfl
    rw [h2, Nat.mod_eq_of_lt] at h
    · exact h
    · rw [← h2]; exact patByte_lt_256 y x 0 hy hx
  · have h := generate_get y x 1 hy hx (by omega) (Buf.zeros (IMAGE_WIDTH * IMAGE_HEIGHT * 3))
    have h2 : patByte y x 1 = y * 255 / IMAGE_HEIGHT := rfl
    rw [h2, Nat.mod_eq_of_lt] at h
    · exact h
    · rw [← h2]; exact patByte_lt_256 y x 1 hy hx
  · have h := generate_get y x 2 hy hx (by omega) (Buf.zeros (IMAGE_WIDTH * IMAGE_HEIGHT * 3))
    have h2 : patByte y x 2 = (x + y) * 255 / (IMAGE_WIDTH + IMAGE_HEIGHT) := rfl
    rw [h2, Nat.mod_eq_of_lt] at h
    · exact h
    · rw [← h2]; exact patByte_lt_256 y x 2 hy hx

/-- Witness for C10 at the concrete pixel `(x, y) = (3, 2)`. -/
theorem C10_test_pattern_witness :
    3 < IMAGE_WIDTH ∧ 2 < IMAGE_HEIGHT ∧
    (input_image.size = IMAGE_WIDTH * IMAGE_HEIGHT * 3 ∧
      input_image.get ((2 * IMAGE_WIDTH + 3) * 3) = 3 * 255 / IMAGE_WIDTH ∧
      input_image.get ((2 * IMAGE_WIDTH + 3) * 3 + 1) = 2 * 255 / IMAGE_HEIGHT ∧
      input_image.get ((2 * IMAGE_WIDTH + 3) * 3 + 2) =
        (3 + 2) * 255 / (IMAGE_WIDTH + IMAGE_HEIGHT) ∧
      (∀ j, IMAGE_WIDTH * IMAGE_HEIGHT * 3 ≤ j → input_image.get j = 0)) :=
  ⟨by decide, by decide, C10_test_pattern 3 2 (by decide) (by decide)⟩

/-! ## Case lemmas for the loop phases -/
theorem inputSide_offer (img : Buf) (s : SimState σ)
    (h1 : s.input_active = true) (h2 : s.pixel_count < IMAGE_WIDTH * IMAGE_HEIGHT)
    (h3 : s.pins.s_axis_tvalid = false ∨
      (s.pins.s_axis_tvalid = true ∧ s.outs.s_axis_tready = true)) :
    inputSide img s =
      { s with
        pins := { s.pins with
          s_axis_tdata := (((img.get (s.pixel_count * 3 + 2)) <<< 16) |||
            ((img.get (s.pixel_count * 3 + 1)) <<< 8) |||
            img.get (s.pixel_count * 3 + 0)) % 2 ^ 32
          s_axis_tvalid := true
          s_axis_tlast := decide ((s.pixel_count + 1) % IMAGE_WIDTH = 0)
          s_axis_tuser := s.pixel_count % IMAGE_WIDTH }
        pixel_count := s.pixel_count + 1
        input_active := false } := by
  unfold inputSide
  rw [if_pos ⟨h1, h2⟩, if_pos h3]

theorem inputSide_hold (img : Buf) (s : SimState σ)
    (h1 : s.input_active = true) (h2 : s.pixel_count < IMAGE_WIDTH * IMAGE_HEIGHT)
    (h3 : ¬(s.pins.s_axis_tvalid = false ∨
      (s.pins.s_axis_tvalid = true ∧ s.outs.s_axis_tready = true))) :
    inputSide img s = s := by
  unfold inputSide
  rw [if_pos ⟨h1, h2⟩, if_neg h3]

theorem inputSide_retire (img : Buf) (s : SimState σ)
    (h1 : ¬(s.input_active = true ∧ s.pixel_count < IMAGE_WIDTH * IMAGE_HEIGHT))
    (h2 : s.pins.s_axis_tvalid = true ∧ s.outs.s_axis_tready = true) :
    inputSide img s =
      { s with
        pins := { s.pins with s_axis_tvalid := false, s_axis_tlast := false }
        input_active := true } := by
  unfold inputSide
  rw [if_neg h1, if_pos h2]

theorem inputSide_idle (img : Buf) (s : SimState σ)
    (h1 : ¬(s.input_active = true ∧ s.pixel_count < IMAGE_WIDTH * IMAGE_HEIGHT))
    (h2 : ¬(s.pins.s_axis_tvalid = true ∧ s.outs.s_axis_tready = true)) :
    inputSide img s = s := by
  unfold inputSide
  rw [if_neg h1, if_neg h2]

/-- The guard of line 162 always holds (see C4), so an accepted output
transfer always stores its three bytes. -/
theorem out_pixel_lt (u : Nat) : out_pixel u < IMAGE_WIDTH * IMAGE_HEIGHT :=
  Nat.mod_lt _ (by decide)

theorem outputSide_accept (s : SimState σ)
    (h : s.outs.m_axis_tvalid = true ∧ s.pins.m_axis_tready = true) :
    outputSide s =
      { s with
        output_image :=
          ((s.output_image.set (out_pixel s.outs.m_axis_tuser * 3 + 0)
              (s.outs.m_axis_tdata &&& 0xFF)).set
            (out_pixel s.outs.m_axis_tuser * 3 + 1)
              ((s.outs.m_axis_tdata >>> 8) &&& 0xFF)).set
            (out_pixel s.outs.m_axis_tuser * 3 + 2)
              ((s.outs.m_axis_tdata >>> 16) &&& 0xFF)
        output_active := true
        out_count := s.out_count + 1 } := by
  unfold outputSide
  rw [if_pos h]
  simp only [if_pos (out_pixel_lt s.outs.m_axis_tuser)]

theorem outputSide_skip (s : SimState σ)
    (h : ¬(s.outs.m_axis_tvalid = true ∧ s.pins.m_axis_tready = true)) :
    outputSide s = s := by
  unfold outputSide
  rw [if_neg h]

/-! ## Frame lemmas: which phase touches which component -/
theorem outputSide_pins (s : SimState σ) : (outputSide s).pins = s.pins := by
  unfold outputSide; split
  · rfl
  · rfl

theorem outputSide_pixel_count (s : SimState σ) :
    (outputSide s).pixel_count = s.pixel_count := by
  unfold outputSide; split
  · rfl
  · rfl

theorem outputSide_input_active (s : SimState σ) :
    (outputSide s).input_active = s.input_active := by
  unfold outputSide; split
  · rfl
  · rfl

theorem outputSide_outs (s : SimState σ) : (outputSide s).outs = s.outs := by
  unfold outputSide; split
  · rfl
  · rfl

theorem outputSide_cycle_count (s : SimState σ) :
    (outputSide s).cycle_count = s.cycle_count := by
  unfold outputSide; split
  · rfl
  · rfl

theorem inputSide_output_image (img : Buf) (s : SimState σ) :
    (inputSide img s).output_image = s.output_image := by
  unfold inputSide; split
  · split
    · rfl
    · rfl
  · split
    · rfl
    · rfl

theorem inputSide_outs (img : Buf) (s : SimState σ) :
    (inputSide img s).outs = s.outs := by
  unfold inputSide; split
  · split
    · rfl
    · rfl
  · split
    · rfl
    · rfl

theorem inputSide_out_count (img : Buf) (s : SimState σ) :
    (inputSide img s).out_count = s.out_count := by
  unfold inputSide; split
  · split
    · rfl
    · rfl
  · split
    · rfl
    · rfl

theorem inputSide_cycle_count (img : Buf) (s : SimState σ) :
    (inputSide img s).cycle_count = s.cycle_count := by
  unfold inputSide; split
  · split
    · rfl
    · rfl
  · split
    · rfl
    · rfl

theorem inputSide_m_axis_tready (img : Buf) (s : SimState σ) :
    (inputSide img s).pins.m_axis_tready = s.pins.m_axis_tready := by
  unfold inputSide; split
  · split
    · rfl
    · rfl
  · split
    · rfl
    · rfl

theorem simStep_cycle_count (d : Dut σ) (img : Buf) (s : SimState σ) :
    (simStep d img s).cycle_count = s.cycle_count + 1 := by
  show (outputSide (inputSide img (clockPhase s))).cycle_count + 1 = s.cycle_count + 1
  rw [outputSide_cycle_count, inputSide_cycle_count]
  rfl

theorem stepN_succ_back (d : Dut σ) (img : Buf) (n : Nat) (s : SimState σ) :
    stepN d img (n + 1) s = simStep d img (stepN d img n s) := by
  induction n generalizing s with
  | zero => rfl
  | succ m ih =>
      show stepN d img (m + 1) (simStep d img s) = _
      rw [ih]
      rfl

theorem stepN_cycle_count (d : Dut σ) (img : Buf) (n : Nat) (s : SimState σ) :
    (stepN d img n s).cycle_count = s.cycle_count + n := by
  induction n generalizing s with
  | zero => rfl
  | succ m ih =>
      show (stepN d img m (simStep d img s)).cycle_count = _
      rw [ih, simStep_cycle_count]
      omega

theorem evalPhase_pins (d : Dut σ) (s : SimState σ) : (evalPhase d s).pins = s.pins := rfl

theorem simStep_pins (d : Dut σ) (img : Buf) (s : SimState σ) :
    (simStep d img s).pins = (inputSide img (clockPhase s)).pins := by
  show (evalPhase d (outputSide (inputSide img (clockPhase s)))).pins = _
  rw [evalPhase_pins, outputSide_pins]

theorem simStep_pixel_count (d : Dut σ) (img : Buf) (s : SimState σ) :
    (simStep d img s).pixel_count = (inputSide img (clockPhase s)).pixel_count := by
  show (evalPhase d (outputSide (inputSide img (clockPhase s)))).pixel_count = _
  show (outputSide (inputSide img (clockPhase s))).pixel_count = _
  rw [outputSide_pixel_count]

theorem simStep_input_active (d : Dut σ) (img : Buf) (s : SimState σ) :
    (simStep d img s).input_active = (inputSide img (clockPhase s)).input_active := by
  show (outputSide (inputSide img (clockPhase s))).input_active = _
  rw [outputSide_input_active]

/-! ## Consumer claims (C3, C4) -/
/-- Claim C3: for every value of the DUT-supplied output metadata and
data, the consumer step never changes the output buffer outside pixel
indices in `[0, W*H)`; and whenever the derived destination index is
out of range the transfer is dropped (the buffer is untouched).  The
second condition is realized by the bounds check of line 162 and is
vacuously satisfied because the derived index is always in range
(see C4). -/
theorem C3_consumer_bounds (s : SimState σ) :
    (∀ j, (outputSide s).output_image.get j ≠ s.output_image.get j →
      ∃ p, p < IMAGE_WIDTH * IMAGE_HEIGHT ∧
        (j = p * 3 ∨ j = p * 3 + 1 ∨ j = p * 3 + 2)) ∧
    (IMAGE_WIDTH * IMAGE_HEIGHT ≤ out_pixel s.outs.m_axis_tuser →
      (outputSide s).output_image = s.output_image) := by
  constructor
  · intro j hj
    by_cases hacc : s.outs.m_axis_tvalid = true ∧ s.pins.m_axis_tready = true
    · rw [outputSide_accept s hacc] at hj
      refine ⟨out_pixel s.outs.m_axis_tuser, out_pixel_lt _, ?_⟩
      by_cases e2 : j = out_pixel s.outs.m_axis_tuser * 3 + 2
      · exact Or.inr (Or.inr e2)
      by_cases e1 : j = out_pixel s.outs.m_axis_tuser * 3 + 1
      · exact Or.inr (Or.inl e1)
      by_cases e0 : j = out_pixel s.outs.m_axis_tuser * 3
      · exact Or.inl e0
      · exfalso
        simp [Buf.get_set, e2, e1, e0] at hj
    · rw [outputSide_skip s hacc] at hj
      exact absurd rfl hj
  · intro hge
    exact absurd (out_pixel_lt s.outs.m_axis_tuser) (by omega)

/-- Claim C4: the destination index is reduced modulo `W*H` immediately
before the guard of line 162, so the guard always evaluates to true:
the drop branch is unreachable, out-of-range metadata wraps to an
in-range index, and every accepted output transfer stores its three
channel bytes. -/
theorem C4_drop_branch_unreachable (u : Nat) (s : SimState σ) :
    out_pixel u < IMAGE_WIDTH * IMAGE_HEIGHT ∧
    (s.outs.m_axis_tvalid = true → s.pins.m_axis_tready = true →
      outputSide s =
        { s with
          output_image :=
            ((s.output_image.set (out_pixel s.outs.m_axis_tuser * 3 + 0)
                (s.outs.m_axis_tdata &&& 0xFF)).set
              (out_pixel s.outs.m_axis_tuser * 3 + 1)
                ((s.outs.m_axis_tdata >>> 8) &&& 0xFF)).set
              (out_pixel s.outs.m_axis_tuser * 3 + 2)
                ((s.outs.m_axis_tdata >>> 16) &&& 0xFF)
          output_active := true
          out_count := s.out_count + 1 }) :=
  ⟨out_pixel_lt u, fun h1 h2 => outputSide_accept s ⟨h1, h2⟩⟩

/-! ## Producer claims (C9, C8, amended C5) -/
/-- Claim C9: on every offered input transfer `i` (0-indexed, `i` being
the running `pixel_count` at offer time) the last-in-row signal is
asserted iff `(i+1) mod W = 0`. -/
theorem C9_tlast_iff (d : Dut σ) (img : Buf) (s : SimState σ)
    (h1 : s.input_active = true) (h2 : s.pixel_count < IMAGE_WIDTH * IMAGE_HEIGHT)
    (h3 : s.pins.s_axis_tvalid = false ∨
      (s.pins.s_axis_tvalid = true ∧ s.outs.s_axis_tready = true)) :
    ((simStep d img s).pins.s_axis_tlast = true ↔
      (s.pixel_count + 1) % IMAGE_WIDTH = 0) := by
  rw [simStep_pins, inputSide_offer img (clockPhase s) h1 h2 h3]
  show decide ((s.pixel_count + 1) % IMAGE_WIDTH = 0) = true ↔ _
  exact decide_eq_true_iff

/-- Claim C5 (amended): after the offered-pixel count has reached
`W*H`, a loop step neither offers another pixel (the count never
changes again) nor raises `s_axis_tvalid` from deasserted; the original
claim fails because the valid signal for the final offered pixel stays
asserted at loop exit (see the counterexample). -/
theorem C5_no_assert_after_done (d : Dut σ) (img : Buf) (s : SimState σ)
    (h : IMAGE_WIDTH * IMAGE_HEIGHT ≤ s.pixel_count) :
    (simStep d img s).pixel_count = s.pixel_count ∧
    ((simStep d img s).pins.s_axis_tvalid = true → s.pins.s_axis_tvalid = true) := by
  have hout : ¬((clockPhase s).input_active = true ∧
      (clockPhase s).pixel_count < IMAGE_WIDTH * IMAGE_HEIGHT) := by
    intro hc
    exact absurd hc.2 (by show ¬(s.pixel_count < _); omega)
  rw [simStep_pixel_count, simStep_pins]
  by_cases hr : (clockPhase s).pins.s_axis_tvalid = true ∧
      (clockPhase s).outs.s_axis_tready = true
  · rw [inputSide_retire img (clockPhase s) hout hr]
    exact ⟨rfl, fun hfalse => Bool.noConfusion hfalse⟩
  · rw [inputSide_idle img (clockPhase s) hout hr]
    exact ⟨rfl, fun htv => htv⟩

/-- Claim C8: the producer has at most one pixel pending at a time (a
new offer happens only when no offer is pending), and an undelivered
pixel is re-offered unchanged: while valid is asserted and ready has
not been observed, data, last and user keep their values.  The
invariant holds at loop entry and is preserved by every loop step. -/
theorem C8_one_pending_stable (d : Dut σ) (img : Buf) (s0 : σ) (cf : Nat) :
    producerInv (loopInit d s0 cf) ∧
    (∀ s : SimState σ, producerInv s → producerInv (simStep d img s)) ∧
    (∀ s : SimState σ, producerInv s →
      (simStep d img s).pixel_count ≠ s.pixel_count →
      s.pins.s_axis_tvalid = false) ∧
    (∀ s : SimState σ, producerInv s → s.pins.s_axis_tvalid = true →
      s.outs.s_axis_tready = false →
      (simStep d img s).pins.s_axis_tvalid = true ∧
      (simStep d img s).pins.s_axis_tdata = s.pins.s_axis_tdata ∧
      (simStep d img s).pins.s_axis_tlast = s.pins.s_axis_tlast ∧
      (simStep d img s).pins.s_axis_tuser = s.pins.s_axis_tuser) := by
  refine ⟨rfl, ?_, ?_, ?_⟩
  · intro s hinv
    unfold producerInv at hinv ⊢
    by_cases ha : s.input_active = true
    · have htv : s.pins.s_axis_tvalid = false := by
        rw [ha] at hinv; cases hb : s.pins.s_axis_tvalid
        · rfl
        · rw [hb] at hinv; exact absurd hinv.symm (by simp)
      by_cases hc : s.pixel_count < IMAGE_WIDTH * IMAGE_HEIGHT
      · rw [show (simStep d img s).input_active =
              (inputSide img (clockPhase s)).input_active from
            simStep_input_active d img s,
          simStep_pins, inputSide_offer img (clockPhase s) ha hc (Or.inl htv)]
        rfl
      · rw [show (simStep d img s).input_active =
              (inputSide img (clockPhase s)).input_active from
            simStep_input_active d img s,
          simStep_pins,
          inputSide_idle img (clockPhase s) (fun hcc => hc hcc.2)
            (fun hcc => by
              have h' : s.pins.s_axis_tvalid = true := hcc.1
              rw [htv] at h'
              exact Bool.noConfusion h')]
        exact hinv
    · have ha' : s.input_active = false := by
        cases hb : s.input_active
        · rfl
        · exact absurd hb ha
      have htv : s.pins.s_axis_tvalid = true := by
        rw [ha'] at hinv; cases hb : s.pins.s_axis_tvalid
        · rw [hb] at hinv; exact absurd hinv (by simp)
        · rfl
      by_cases hrdy : s.outs.s_axis_tready = true
      · rw [show (simStep d img s).input_active =
              (inputSide img (clockPhase s)).input_active from
            simStep_input_active d img s,
          simStep_pins,
          inputSide_retire img (clockPhase s) (fun hcc => ha hcc.1) ⟨htv, hrdy⟩]
        rfl
      · rw [show (simStep d img s).input_active =
              (inputSide img (clockPhase s)).input_active from
            simStep_input_active d img s,
          simStep_pins,
          inputSide_idle img (clockPhase s) (fun hcc => ha hcc.1)
            (fun hcc => hrdy hcc.2)]
        exact hinv
  · intro s hinv hne
    unfold producerInv at hinv
    cases hb : s.pins.s_axis_tvalid
    · rfl
    · exfalso
      apply hne
      have ha' : s.input_active = false := by rw [hinv, hb]; rfl
      rw [simStep_pixel_count]
      by_cases hrdy : s.outs.s_axis_tready = true
      · rw [inputSide_retire img (clockPhase s)
          (fun hcc => by
            have h' : s.input_active = true := hcc.1
            rw [ha'] at h'
            exact Bool.noConfusion h') ⟨hb, hrdy⟩]
        rfl
      · rw [inputSide_idle img (clockPhase s)
          (fun hcc => by
            have h' : s.input_active = true := hcc.1
            rw [ha'] at h'
            exact Bool.noConfusion h')
          (fun hcc => hrdy hcc.2)]
        rfl
  · intro s hinv htv hnr
    unfold producerInv at hinv
    have ha' : s.input_active = false := by rw [hinv, htv]; rfl
    have hidle : inputSide img (clockPhase s) = clockPhase s :=
      inputSide_idle img (clockPhase s)
        (fun hcc => by
          have h' : s.input_active = true := hcc.1
          rw [ha'] at h'
          exact Bool.noConfusion h')
        (fun hcc => by
          have h' : s.outs.s_axis_tready = true := hcc.2
          rw [hnr] at h'
          exact Bool.noConfusion h')
    rw [simStep_pins, hidle]
    exact ⟨htv, rfl, rfl, rfl⟩

/-! ## The cycle budget and the loop exit (C7, amended C2) -/
theorem simLoop_cycle_le (d : Dut σ) (img : Buf) :
    ∀ fuel s, (simLoop d img fuel s).cycle_count ≤ s.cycle_count + fuel := by
  intro fuel
  induction fuel with
  | zero => intro s; exact Nat.le_refl _
  | succ n ih =>
      intro s
      show (if loopGuard s then simLoop d img n (simStep d img s) else s).cycle_count ≤ _
      split
      · calc (simLoop d img n (simStep d img s)).cycle_count
            ≤ (simStep d img s).cycle_count + n := ih _
          _ = s.cycle_count + 1 + n := by rw [simStep_cycle_count]
          _ ≤ s.cycle_count + (n + 1) := by omega
      · omega

theorem simLoop_guard_false (d : Dut σ) (img : Buf) :
    ∀ fuel s, 1000000 ≤ s.cycle_count + fuel → ¬ loopGuard (simLoop d img fuel s) := by
  intro fuel
  induction fuel with
  | zero =>
      intro s hs
      show ¬ loopGuard s
      intro hg
      exact absurd hg.2 (by omega)
  | succ n ih =>
      intro s hs
      show ¬ loopGuard (if loopGuard s then simLoop d img n (simStep d img s) else s)
      split
      · exact ih (simStep d img s) (by rw [simStep_cycle_count]; omega)
      · next hng => exact hng

/-- The loop runs exactly while the guard holds: there is a step index
`m` such that the loop result is the `m`-fold iterate of the body,
the guard fails there, and the guard held at every earlier iterate. -/
theorem simLoop_trace (d : Dut σ) (img : Buf) :
    ∀ fuel s, 1000000 ≤ s.cycle_count + fuel →
      ∃ m, simLoop d img fuel s = stepN d img m s ∧
        ¬ loopGuard (stepN d img m s) ∧
        (∀ j, j < m → loopGuard (stepN d img j s)) := by
  intro fuel
  induction fuel with
  | zero =>
      intro s hs
      refine ⟨0, rfl, ?_, fun j hj => absurd hj (by omega)⟩
      intro hg
      have hc : (stepN d img 0 s).cycle_count = s.cycle_count := rfl
      have h2 := hg.2
      omega
  | succ n ih =>
      intro s hs
      by_cases hg : loopGuard s
      · have hs' : 1000000 ≤ (simStep d img s).cycle_count + n := by
          rw [simStep_cycle_count]; omega
        obtain ⟨m', heq, hng, hall⟩ := ih (simStep d img s) hs'
        refine ⟨m' + 1, ?_, hng, ?_⟩
        · show (if loopGuard s then simLoop d img n (simStep d img s) else s) = _
          rw [if_pos hg]
          exact heq
        · intro j hj
          cases j with
          | zero => exact hg
          | succ j' => exact hall j' (by omega)
      · refine ⟨0, ?_, hg, fun j hj => absurd hj (by omega)⟩
        show (if loopGuard s then simLoop d img n (simStep d img s) else s) = s
        rw [if_neg hg]

/-- The image is untouched by a loop step in which the latched output
valid is low. -/
theorem simStep_image_of_not_valid (d : Dut σ) (img : Buf) (s : SimState σ)
    (hm : s.outs.m_axis_tvalid = false) :
    (simStep d img s).output_image = s.output_image := by
  show (outputSide (inputSide img (clockPhase s))).output_image = _
  rw [outputSide_skip _ (fun hc => by
    have h' : s.outs.m_axis_tvalid = true := by
      have h2 := hc.1
      rw [inputSide_outs] at h2
      exact h2
    rw [hm] at h'
    exact Bool.noConfusion h')]
  rw [inputSide_output_image]
  rfl

theorem simStep_outs_eval (d : Dut σ) (img : Buf) (s : SimState σ) :
    (simStep d img s).outs =
      (d.eval (outputSide (inputSide img (clockPhase s))).pins
        (outputSide (inputSide img (clockPhase s))).dutSt).2 := rfl

theorem iterN_pres (f : α → α) (P : α → Prop) (hf : ∀ a, P a → P (f a)) :
    ∀ n a, P a → P (iterN f n a) := by
  intro n
  induction n with
  | zero => intro a ha; exact ha
  | succ m ih => intro a ha; exact ih (f a) (hf a ha)

theorem waitWriteReady_mvalid (d : Dut σ) (pins : DutIn)
    (hnv : ∀ i st, (d.eval i st).2.m_axis_tvalid = false) :
    ∀ fuel p, p.2.m_axis_tvalid = false →
      (waitWriteReady d pins fuel p).2.m_axis_tvalid = false := by
  intro fuel
  induction fuel with
  | zero => intro p hp; exact hp
  | succ n ih =>
      intro p hp
      show (if p.2.s_axi_awready = true ∧ p.2.s_axi_wready = true then p
        else waitWriteReady d pins n (d.eval pins p.1)).2.m_axis_tvalid = false
      split
      · exact hp
      · exact ih (d.eval pins p.1) (hnv pins p.1)

theorem loopInit_outs_mvalid (d : Dut σ) (s0 : σ) (cf : Nat)
    (hnv : ∀ i st, (d.eval i st).2.m_axis_tvalid = false) :
    (loopInit d s0 cf).outs.m_axis_tvalid = false := by
  have h10 : (afterReset d s0).2.2.m_axis_tvalid = false :=
    iterN_pres (resetStep d) (fun p => p.2.2.m_axis_tvalid = false)
      (fun a ha => hnv _ _) 10 (DutIn.init, s0, DutOut.init) rfl
  show (waitWriteReady d _ cf _).2.m_axis_tvalid = false
  exact waitWriteReady_mvalid d _ hnv cf _ h10

/-- If the latched output valid is low and stays low through `eval`, the
output image is never written by the loop. -/
theorem simLoop_image_frame (d : Dut σ) (img : Buf)
    (hnv : ∀ i st, (d.eval i st).2.m_axis_tvalid = false) :
    ∀ fuel s, s.outs.m_axis_tvalid = false →
      (simLoop d img fuel s).output_image = s.output_image := by
  intro fuel
  induction fuel with
  | zero => intro s hs; rfl
  | succ n ih =>
      intro s hs
      show (if loopGuard s then simLoop d img n (simStep d img s) else s).output_image = _
      split
      · rw [ih (simStep d img s) (by rw [simStep_outs_eval]; exact hnv _ _),
          simStep_image_of_not_valid d img s hs]
      · rfl

/-- Claim C7: for every DUT behaviour the main loop runs at most
1000000 iterations (each iteration increments `cycle_count`, which
starts at 0, so the final count is the iteration count) and exits with
the guard genuinely false; and when the DUT never asserts output valid,
the output image at exit is still its zero-initialized state. -/
theorem C7_budget_and_zero_output (d : Dut σ) (s0 : σ) (cf : Nat) :
    (mainRun d s0 cf).cycle_count ≤ 1000000 ∧
    ¬ loopGuard (mainRun d s0 cf) ∧
    ((∀ i st, (d.eval i st).2.m_axis_tvalid = false) →
      ∀ j, (mainRun d s0 cf).output_image.get j = 0) := by
  have h0 : (loopInit d s0 cf).cycle_count = 0 := rfl
  refine ⟨?_, ?_, ?_⟩
  · have := simLoop_cycle_le d input_image 1000000 (loopInit d s0 cf)
    rw [h0] at this
    simpa using this
  · exact simLoop_guard_false d input_image 1000000 (loopInit d s0 cf) (by omega)
  · intro hnv j
    have := simLoop_image_frame d input_image hnv 1000000 (loopInit d s0 cf)
      (loopInit_outs_mvalid d s0 cf hnv)
    show (simLoop d input_image 1000000 (loopInit d s0 cf)).output_image.get j = 0
    rw [this]
    rfl

/-- Claim C2 (amended): the main loop iterates exactly until
`pixel_count`, the number of input pixels *offered by the producer*,
reaches `W*H`, or `cycle_count` reaches 1000000: at exit the guard is
false and it held at every earlier iteration.  (The original claim's
first termination condition — all output pixels received by the
consumer — is not what the code tests; see the counterexample.) -/
theorem C2_exit_exactly_at_guard (d : Dut σ) (s0 : σ) (cf : Nat) :
    ∃ m, mainRun d s0 cf = stepN d input_image m (loopInit d s0 cf) ∧
      ¬ ((stepN d input_image m (loopInit d s0 cf)).pixel_count <
            IMAGE_WIDTH * IMAGE_HEIGHT ∧
          (stepN d input_image m (loopInit d s0 cf)).cycle_count < 1000000) ∧
      (∀ j, j < m →
        (stepN d input_image j (loopInit d s0 cf)).pixel_count <
            IMAGE_WIDTH * IMAGE_HEIGHT ∧
          (stepN d input_image j (loopInit d s0 cf)).cycle_count < 1000000) := by
  have h0 : (loopInit d s0 cf).cycle_count = 0 := rfl
  obtain ⟨m, heq, hng, hall⟩ :=
    simLoop_trace d input_image 1000000 (loopInit d s0 cf) (by omega)
  exact ⟨m, heq, hng, hall⟩

theorem waitWriteReady_reaches (d : Dut σ) (pins : DutIn) :
    ∀ fuel p n, n ≤ fuel →
      (spinSt d pins n p).2.s_axi_awready = true ∧
        (spinSt d pins n p).2.s_axi_wready = true →
      (waitWriteReady d pins fuel p).2.s_axi_awready = true ∧
        (waitWriteReady d pins fuel p).2.s_axi_wready = true := by
  intro fuel
  induction fuel with
  | zero =>
      intro p n hn hr
      have : n = 0 := by omega
      rw [this] at hr
      exact hr
  | succ f ih =>
      intro p n hn hr
      show (if p.2.s_axi_awready = true ∧ p.2.s_axi_wready = true then p
          else waitWriteReady d pins f (d.eval pins p.1)).2.s_axi_awready = true ∧
        (if p.2.s_axi_awready = true ∧ p.2.s_axi_wready = true then p
          else waitWriteReady d pins f (d.eval pins p.1)).2.s_axi_wready = true
      split
      · next hready => exact hready
      · next hnready =>
          cases n with
          | zero => exact absurd hr hnready
          | succ n' => exact ih (d.eval pins p.1) n' (by omega) hr

/-- Claim C6: `configure_kernel` asserts write address, write data,
both valids and a full strobe mask for the first coefficient only,
spins on bare `eval()` calls (no clock pin changes) until both
write-ready outputs are observed asserted in the same step, then
deasserts both valids and returns.  The result is entirely independent
of the other eight coefficients: they are never transmitted. -/
theorem C6_single_register_write (d : Dut σ) (fuel : Nat)
    (k00 k01 k02 k10 k11 k12 k20 k21 k22 : Nat) (p : DutIn × σ × DutOut)
    (hterm : ∃ n, n ≤ fuel ∧
      (spinSt d (cfgPins p.1 k00) n (p.2.1, p.2.2)).2.s_axi_awready = true ∧
      (spinSt d (cfgPins p.1 k00) n (p.2.1, p.2.2)).2.s_axi_wready = true) :
    (configure_kernel d fuel k00 k01 k02 k10 k11 k12 k20 k21 k22 p).1.s_axi_awvalid
        = false ∧
    (configure_kernel d fuel k00 k01 k02 k10 k11 k12 k20 k21 k22 p).1.s_axi_wvalid
        = false ∧
    (configure_kernel d fuel k00 k01 k02 k10 k11 k12 k20 k21 k22 p).1.s_axi_awaddr = 0 ∧
    (configure_kernel d fuel k00 k01 k02 k10 k11 k12 k20 k21 k22 p).1.s_axi_wdata = k00 ∧
    (configure_kernel d fuel k00 k01 k02 k10 k11 k12 k20 k21 k22 p).1.s_axi_wstrb = 0xF ∧
    (configure_kernel d fuel k00 k01 k02 k10 k11 k12 k20 k21 k22 p).1.clk = p.1.clk ∧
    (configure_kernel d fuel k00 k01 k02 k10 k11 k12 k20 k21 k22 p).1.s_axi_aclk
        = p.1.s_axi_aclk ∧
    (configure_kernel d fuel k00 k01 k02 k10 k11 k12 k20 k21 k22 p).2.2.s_axi_awready
        = true ∧
    (configure_kernel d fuel k00 k01 k02 k10 k11 k12 k20 k21 k22 p).2.2.s_axi_wready
        = true ∧
    configure_kernel d fuel k00 k01 k02 k10 k11 k12 k20 k21 k22 p =
      configure_kernel d fuel k00 0 0 0 0 0 0 0 0 p := by
  obtain ⟨n, hn, hr⟩ := hterm
  have hready := waitWriteReady_reaches d (cfgPins p.1 k00) fuel (p.2.1, p.2.2) n hn hr
  exact ⟨rfl, rfl, rfl, rfl, rfl, rfl, rfl, hready.1, hready.2, rfl⟩

/-- The wire DUT preserves stream data and metadata exactly. -/
theorem wireDut_pass_through (i : DutIn) (u : Unit) :
    (wireDut.eval i u).2.m_axis_tvalid = i.s_axis_tvalid ∧
    (wireDut.eval i u).2.m_axis_tdata = i.s_axis_tdata ∧
    (wireDut.eval i u).2.m_axis_tuser = i.s_axis_tuser ∧
    (wireDut.eval i u).2.s_axis_tready = i.m_axis_tready :=
  ⟨rfl, rfl, rfl, rfl⟩

/-! ## The wireDut run, characterized exactly

With `wireDut` the main loop is strictly periodic: even iterations
offer pixel `k` (producer), odd iterations retire the handshake and
consume the mirrored transfer.  Byte 3841 of the output image (pixel
(0,2), channel G) is never written, because every derived destination
index comes from a column value `u < 640` and `out_pixel u ≠ 1280`. -/
/-- No in-range column metadata ever maps to destination pixel 1280. -/
theorem out_pixel_ne_1280 : ∀ u, u < IMAGE_WIDTH → out_pixel u ≠ 1280 := by decide

/-- Writing the three channel bytes of any in-range column's derived
destination never touches byte 3841. -/
theorem write3_get_3841 (b : Buf) (u r g bl : Nat) (hu : u < IMAGE_WIDTH)
    (hb : b.get 3841 = 0) :
    (((b.set (out_pixel u * 3 + 0) r).set (out_pixel u * 3 + 1) g).set
      (out_pixel u * 3 + 2) bl).get 3841 = 0 := by
  have hnp : out_pixel u ≠ 1280 := out_pixel_ne_1280 u hu
  rw [Buf.get_set, if_neg (by omega), Buf.get_set, if_neg (by omega),
    Buf.get_set, if_neg (by omega)]
  exact hb

theorem wire_offer (img : Buf) (k : Nat) (s : SimState Unit)
    (hk : k < IMAGE_WIDTH * IMAGE_HEIGHT) (h : wireEven k s) :
    wireOdd k (simStep wireDut img s) := by
  obtain ⟨hpc, hcy, hia, htv, hmr, hmv, hoc, him⟩ := h
  have h2 : (clockPhase s).pixel_count < IMAGE_WIDTH * IMAGE_HEIGHT := by
    show s.pixel_count < _
    omega
  have h3 : (clockPhase s).pins.s_axis_tvalid = false ∨
      ((clockPhase s).pins.s_axis_tvalid = true ∧
        (clockPhase s).outs.s_axis_tready = true) := Or.inl htv
  have hoffer := inputSide_offer img (clockPhase s) hia h2 h3
  have hskip : outputSide (inputSide img (clockPhase s)) =
      inputSide img (clockPhase s) := by
    apply outputSide_skip
    intro hc
    have h' : s.outs.m_axis_tvalid = true := by
      have h2' := hc.1
      rw [inputSide_outs] at h2'
      exact h2'
    rw [hmv] at h'
    exact Bool.noConfusion h'
  have hstep : simStep wireDut img s =
      evalPhase wireDut (inputSide img (clockPhase s)) := by
    show evalPhase wireDut (outputSide (inputSide img (clockPhase s))) = _
    rw [hskip]
  rw [hstep, hoffer]
  refine ⟨?_, ?_, rfl, rfl, hmr, ?_, rfl, hmr, ?_, hoc, him⟩
  · show s.pixel_count + 1 = k + 1
    omega
  · show s.cycle_count + 1 = 2 * k + 1
    omega
  · show s.pixel_count % IMAGE_WIDTH = k % IMAGE_WIDTH
    rw [hpc]
  · show s.pixel_count % IMAGE_WIDTH = k % IMAGE_WIDTH
    rw [hpc]

theorem wire_retire (img : Buf) (k : Nat) (s : SimState Unit) (h : wireOdd k s) :
    wireEven (k + 1) (simStep wireDut img s) := by
  obtain ⟨hpc, hcy, hia, htv, hmr, hus, hmv, hrd, humt, hoc, him⟩ := h
  have hno : ¬((clockPhase s).input_active = true ∧
      (clockPhase s).pixel_count < IMAGE_WIDTH * IMAGE_HEIGHT) := by
    intro hc
    have h' : s.input_active = true := hc.1
    rw [hia] at h'
    exact Bool.noConfusion h'
  have hretire := inputSide_retire img (clockPhase s) hno ⟨htv, hrd⟩
  have hstep : simStep wireDut img s =
      evalPhase wireDut (outputSide (inputSide img (clockPhase s))) := rfl
  have hacc : (inputSide img (clockPhase s)).outs.m_axis_tvalid = true ∧
      (inputSide img (clockPhase s)).pins.m_axis_tready = true := by
    constructor
    · rw [inputSide_outs]
      exact hmv
    · rw [inputSide_m_axis_tready]
      exact hmr
  rw [hstep, outputSide_accept (inputSide img (clockPhase s)) hacc, hretire]
  refine ⟨hpc, ?_, rfl, rfl, hmr, rfl, ?_, ?_⟩
  · show s.cycle_count + 1 = 2 * (k + 1)
    omega
  · show s.out_count + 1 = k + 1
    omega
  · exact write3_get_3841 _ _ _ _ _
      (show s.outs.m_axis_tuser < IMAGE_WIDTH by
        rw [humt]; exact Nat.mod_lt _ (by decide)) him

theorem wire_even_iter :
    ∀ k, k < IMAGE_WIDTH * IMAGE_HEIGHT →
      wireEven k (stepN wireDut input_image (2 * k) (loopInit wireDut () 1)) := by
  intro k
  induction k with
  | zero =>
      intro hk
      show wireEven 0 (loopInit wireDut () 1)
      exact ⟨rfl, rfl, rfl, rfl, rfl, rfl, rfl, rfl⟩
  | succ k ih =>
      intro hk
      have h2 : stepN wireDut input_image (2 * (k + 1)) (loopInit wireDut () 1) =
          simStep wireDut input_image (simStep wireDut input_image
            (stepN wireDut input_image (2 * k) (loopInit wireDut () 1))) := by
        rw [show 2 * (k + 1) = (2 * k + 1) + 1 by ring, stepN_succ_back, stepN_succ_back]
      rw [h2]
      exact wire_retire input_image k _
        (wire_offer input_image k _ (by omega) (ih (by omega)))

theorem simLoop_exit (d : Dut σ) (img : Buf) :
    ∀ m fuel s, m ≤ fuel → (∀ j, j < m → loopGuard (stepN d img j s)) →
      ¬ loopGuard (stepN d img m s) → simLoop d img fuel s = stepN d img m s := by
  intro m
  induction m with
  | zero =>
      intro fuel s hle hall hng
      cases fuel with
      | zero => rfl
      | succ n =>
          show (if loopGuard s then simLoop d img n (simStep d img s) else s) = _
          rw [if_neg (show ¬ loopGuard s from hng)]
          rfl
  | succ k ih =>
      intro fuel s hle hall hng
      obtain ⟨f', rfl⟩ : ∃ f', fuel = f' + 1 := ⟨fuel - 1, by omega⟩
      show (if loopGuard s then simLoop d img f' (simStep d img s) else s) = _
      rw [if_pos (show loopGuard s from hall 0 (by omega))]
      exact ih f' (simStep d img s) (by omega) (fun j hj => hall (j + 1) (by omega)) hng

theorem outputSide_image_size (s : SimState σ) :
    (outputSide s).output_image.size = s.output_image.size := by
  by_cases hacc : s.outs.m_axis_tvalid = true ∧ s.pins.m_axis_tready = true
  · rw [outputSide_accept s hacc]
    rfl
  · rw [outputSide_skip s hacc]

theorem simStep_image_size (d : Dut σ) (img : Buf) (s : SimState σ) :
    (simStep d img s).output_image.size = s.output_image.size := by
  show (outputSide (inputSide img (clockPhase s))).output_image.size = _
  rw [outputSide_image_size, inputSide_output_image]
  rfl

theorem stepN_image_size (d : Dut σ) (img : Buf) :
    ∀ n s, (stepN d img n s).output_image.size = s.output_image.size := by
  intro n
  induction n with
  | zero => intro s; rfl
  | succ m ih =>
      intro s
      show (stepN d img m (simStep d img s)).output_image.size = _
      rw [ih, simStep_image_size]

/-- The complete wireDut run: the loop exits after exactly
`2*(W*H-1)+1 = 614399` iterations, in the state characterized by
`wireOdd (W*H - 1)` — the last pixel has just been offered, the guard
fails, and the loop stops before retiring it. -/
theorem wire_run_characterization :
    mainRun wireDut () 1 =
      stepN wireDut input_image (2 * (IMAGE_WIDTH * IMAGE_HEIGHT - 1) + 1)
        (loopInit wireDut () 1) ∧
    wireOdd (IMAGE_WIDTH * IMAGE_HEIGHT - 1)
      (stepN wireDut input_image (2 * (IMAGE_WIDTH * IMAGE_HEIGHT - 1) + 1)
        (loopInit wireDut () 1)) := by
  have hWH : IMAGE_WIDTH * IMAGE_HEIGHT = 307200 := by decide
  have hodd : ∀ k, k < IMAGE_WIDTH * IMAGE_HEIGHT →
      wireOdd k (stepN wireDut input_image (2 * k + 1) (loopInit wireDut () 1)) := by
    intro k hk
    rw [stepN_succ_back]
    exact wire_offer input_image k _ hk (wire_even_iter k hk)
  have hfin := hodd (IMAGE_WIDTH * IMAGE_HEIGHT - 1) (by omega)
  refine ⟨?_, hfin⟩
  show simLoop wireDut input_image 1000000 (loopInit wireDut () 1) = _
  apply simLoop_exit
  · omega
  · intro j hj
    obtain ⟨k, hk2⟩ : ∃ k2, j = 2 * k2 ∨ j = 2 * k2 + 1 := ⟨j / 2, by omega⟩
    rcases hk2 with rfl | rfl
    · have hkN : k < IMAGE_WIDTH * IMAGE_HEIGHT := by omega
      have he := wire_even_iter k hkN
      constructor
      · rw [he.1]
        omega
      · rw [he.2.1]
        omega
    · have hkN : k < IMAGE_WIDTH * IMAGE_HEIGHT := by omega
      have ho := hodd k hkN
      constructor
      · rw [ho.1]
        omega
      · rw [ho.2.1]
        omega
  · intro hg
    have h1 := hg.1
    rw [hfin.1] at h1
    omega

/-! ## The run-level claim theorems -/
/-- Claim C1 fails on this code: with the combinational identity
pass-through DUT `wireDut` the loop runs to completion well inside the
cycle budget (all `W*H` input pixels offered, exit at cycle 614399),
yet the output buffer does not equal the input buffer byte-for-byte.
The consumer derives its destination index from the column metadata
alone, so pixel (0,2) — byte index 3841, whose input G byte is 1 — is
never written and stays 0. -/
theorem C1_identity_not_reproduced :
    (mainRun wireDut () 1).pixel_count = IMAGE_WIDTH * IMAGE_HEIGHT ∧
    (mainRun wireDut () 1).cycle_count = 614399 ∧
    (mainRun wireDut () 1).cycle_count < 1000000 ∧
    (mainRun wireDut () 1).output_image.size = input_image.size ∧
    ¬ (∀ i, i < input_image.size →
        (mainRun wireDut () 1).output_image.get i = input_image.get i) := by
  have hWH : IMAGE_WIDTH * IMAGE_HEIGHT = 307200 := by decide
  obtain ⟨heq, hodd⟩ := wire_run_characterization
  obtain ⟨hpc, hcy, hia, htv, hmr, hus, hmv, hrd, humt, hoc, him⟩ := hodd
  rw [heq]
  refine ⟨?_, ?_, ?_, ?_, ?_⟩
  · rw [hpc]
    omega
  · rw [hcy]
    omega
  · rw [hcy]
    omega
  · rw [stepN_image_size]
    rw [show input_image.size =
      (Buf.zeros (IMAGE_WIDTH * IMAGE_HEIGHT * 3)).size from generate_size _]
    rfl
  · intro hall
    have h3841lt : 3841 < input_image.size := by
      rw [show input_image.size =
        (Buf.zeros (IMAGE_WIDTH * IMAGE_HEIGHT * 3)).size from generate_size _]
      decide
    have hval := hall 3841 h3841lt
    rw [him] at hval
    have hin : input_image.get 3841 = 1 := by
      have h := generate_get 2 0 1 (by decide) (by decide) (by decide)
        (Buf.zeros (IMAGE_WIDTH * IMAGE_HEIGHT * 3))
      have hidx : (2 * IMAGE_WIDTH + 0) * 3 + 1 = 3841 := by decide
      rw [hidx] at h
      show (generate_test_pattern (Buf.zeros (IMAGE_WIDTH * IMAGE_HEIGHT * 3))).get 3841 = 1
      rw [h]
      decide
    rw [hin] at hval
    exact absurd hval (by decide)

/-- Claim C2 as stated fails on this code: with the identity
pass-through DUT the loop exits with only 307199 of the 307200 output
transfers received (`out_count` counts accepted output transfers) and
the cycle counter far below 1000000, so the exit is explained by
neither of the claim's two conditions — the guard actually counts
pixels offered on the input side. -/
theorem C2_cex_exit_without_all_outputs :
    ¬ loopGuard (mainRun wireDut () 1) ∧
    (mainRun wireDut () 1).out_count = 307199 ∧
    (mainRun wireDut () 1).cycle_count < 1000000 ∧
    ¬ (IMAGE_WIDTH * IMAGE_HEIGHT ≤ (mainRun wireDut () 1).out_count ∨
        1000000 ≤ (mainRun wireDut () 1).cycle_count) := by
  have hWH : IMAGE_WIDTH * IMAGE_HEIGHT = 307200 := by decide
  obtain ⟨heq, hodd⟩ := wire_run_characterization
  obtain ⟨hpc, hcy, hia, htv, hmr, hus, hmv, hrd, humt, hoc, him⟩ := hodd
  rw [heq]
  refine ⟨?_, ?_, ?_, ?_⟩
  · intro hg
    have h1 := hg.1
    rw [hpc] at h1
    omega
  · rw [hoc]
    omega
  · rw [hcy]
    omega
  · intro hor
    rcases hor with h | h
    · rw [hoc] at h
      omega
    · rw [hcy] at h
      omega

/-- Claim C5 as stated fails on this code: at loop exit the offered
count has reached `W*H` yet `s_axis_tvalid` is still asserted — the
final offer is never retired because the loop exits first, and nothing
after the loop deasserts the pin. -/
theorem C5_cex_valid_asserted_at_exit :
    (mainRun wireDut () 1).pixel_count = IMAGE_WIDTH * IMAGE_HEIGHT ∧
    (mainRun wireDut () 1).pins.s_axis_tvalid = true := by
  have hWH : IMAGE_WIDTH * IMAGE_HEIGHT = 307200 := by decide
  obtain ⟨heq, hodd⟩ := wire_run_characterization
  rw [heq]
  refine ⟨?_, hodd.2.2.2.1⟩
  rw [hodd.1]
  omega

/-- Witness for C3 at the concrete state `demoState` and byte index 3:
the consumer does change that byte, and the changed byte belongs to an
in-range pixel. -/
theorem C3_consumer_bounds_witness :
    ((outputSide demoState).output_image.get 3 ≠ demoState.output_image.get 3) ∧
    (∃ p, p < IMAGE_WIDTH * IMAGE_HEIGHT ∧
      (3 = p * 3 ∨ 3 = p * 3 + 1 ∨ 3 = p * 3 + 2)) :=
  ⟨by decide, (C3_consumer_bounds demoState).1 3 (by decide)⟩

/-- Witness for C4 at the out-of-range metadata value 700 and the
concrete accepted transfer of `demoState`. -/
theorem C4_drop_branch_unreachable_witness :
    demoState.outs.m_axis_tvalid = true ∧ demoState.pins.m_axis_tready = true ∧
    out_pixel 700 < IMAGE_WIDTH * IMAGE_HEIGHT ∧
    outputSide demoState =
      { demoState with
        output_image :=
          ((demoState.output_image.set (out_pixel demoState.outs.m_axis_tuser * 3 + 0)
              (demoState.outs.m_axis_tdata &&& 0xFF)).set
            (out_pixel demoState.outs.m_axis_tuser * 3 + 1)
              ((demoState.outs.m_axis_tdata >>> 8) &&& 0xFF)).set
            (out_pixel demoState.outs.m_axis_tuser * 3 + 2)
              ((demoState.outs.m_axis_tdata >>> 16) &&& 0xFF)
        output_active := true
        out_count := demoState.out_count + 1 } :=
  ⟨rfl, rfl, (C4_drop_branch_unreachable 700 demoState).1,
    (C4_drop_branch_unreachable 700 demoState).2 rfl rfl⟩

/-- Witness for C9 at the concrete state `demoState` (offer of pixel 0:
not the last of a row since `(0+1) % 640 ≠ 0`). -/
theorem C9_tlast_iff_witness :
    demoState.input_active = true ∧
    demoState.pixel_count < IMAGE_WIDTH * IMAGE_HEIGHT ∧
    (demoState.pins.s_axis_tvalid = false ∨
      (demoState.pins.s_axis_tvalid = true ∧ demoState.outs.s_axis_tready = true)) ∧
    (((simStep stubDut (Buf.zeros 3) demoState).pins.s_axis_tlast = true) ↔
      (demoState.pixel_count + 1) % IMAGE_WIDTH = 0) :=
  ⟨rfl, by decide, Or.inl rfl,
    C9_tlast_iff stubDut (Buf.zeros 3) demoState rfl (by decide) (Or.inl rfl)⟩

/-- Witness for the amended C5 at the concrete state `doneState`. -/
theorem C5_no_assert_after_done_witness :
    IMAGE_WIDTH * IMAGE_HEIGHT ≤ doneState.pixel_count ∧
    ((simStep stubDut (Buf.zeros 3) doneState).pixel_count = doneState.pixel_count ∧
      ((simStep stubDut (Buf.zeros 3) doneState).pins.s_axis_tvalid = true →
        doneState.pins.s_axis_tvalid = true)) :=
  ⟨by decide, C5_no_assert_after_done stubDut (Buf.zeros 3) doneState (by decide)⟩

/-- Witness for C8 at the concrete states `demoState` (idle, invariant
preserved) and `pendingState` (pending un-ready offer: pins stable). -/
theorem C8_one_pending_stable_witness :
    producerInv (loopInit stubDut () 1) ∧
    producerInv demoState ∧
    producerInv (simStep stubDut (Buf.zeros 3) demoState) ∧
    ((simStep stubDut (Buf.zeros 3) pendingState).pins.s_axis_tvalid = true ∧
      (simStep stubDut (Buf.zeros 3) pendingState).pins.s_axis_tdata =
        pendingState.pins.s_axis_tdata ∧
      (simStep stubDut (Buf.zeros 3) pendingState).pins.s_axis_tlast =
        pendingState.pins.s_axis_tlast ∧
      (simStep stubDut (Buf.zeros 3) pendingState).pins.s_axis_tuser =
        pendingState.pins.s_axis_tuser) := by
  obtain ⟨h1, h2, h3, h4⟩ := C8_one_pending_stable stubDut (Buf.zeros 3) () 1
  exact ⟨h1, rfl, h2 demoState rfl, h4 pendingState rfl rfl rfl⟩

/-- Witness for C6 with the always-ready `stubDut`, coefficient 5 and
junk values for the other eight coefficients. -/
theorem C6_single_register_write_witness :
    (∃ n, n ≤ 1 ∧
      (spinSt stubDut (cfgPins DutIn.init 5) n ((), DutOut.init)).2.s_axi_awready
          = true ∧
      (spinSt stubDut (cfgPins DutIn.init 5) n ((), DutOut.init)).2.s_axi_wready
          = true) ∧
    ((configure_kernel stubDut 1 5 9 9 9 9 9 9 9 9
        (DutIn.init, (), DutOut.init)).1.s_axi_awvalid = false ∧
      (configure_kernel stubDut 1 5 9 9 9 9 9 9 9 9
        (DutIn.init, (), DutOut.init)).1.s_axi_wvalid = false ∧
      (configure_kernel stubDut 1 5 9 9 9 9 9 9 9 9
        (DutIn.init, (), DutOut.init)).1.s_axi_awaddr = 0 ∧
      (configure_kernel stubDut 1 5 9 9 9 9 9 9 9 9
        (DutIn.init, (), DutOut.init)).1.s_axi_wdata = 5 ∧
      (configure_kernel stubDut 1 5 9 9 9 9 9 9 9 9
        (DutIn.init, (), DutOut.init)).1.s_axi_wstrb = 0xF ∧
      (configure_kernel stubDut 1 5 9 9 9 9 9 9 9 9
        (DutIn.init, (), DutOut.init)).1.clk = DutIn.init.clk ∧
      (configure_kernel stubDut 1 5 9 9 9 9 9 9 9 9
        (DutIn.init, (), DutOut.init)).1.s_axi_aclk = DutIn.init.s_axi_aclk ∧
      (configure_kernel stubDut 1 5 9 9 9 9 9 9 9 9
        (DutIn.init, (), DutOut.init)).2.2.s_axi_awready = true ∧
      (configure_kernel stubDut 1 5 9 9 9 9 9 9 9 9
        (DutIn.init, (), DutOut.init)).2.2.s_axi_wready = true ∧
      configure_kernel stubDut 1 5 9 9 9 9 9 9 9 9 (DutIn.init, (), DutOut.init) =
        configure_kernel stubDut 1 5 0 0 0 0 0 0 0 0 (DutIn.init, (), DutOut.init)) :=
  ⟨⟨1, by decide, rfl, rfl⟩,
    C6_single_register_write stubDut 1 5 9 9 9 9 9 9 9 9
      (DutIn.init, (), DutOut.init) ⟨1, by decide, rfl, rfl⟩⟩

/-- Witness for C7 with the never-valid `stubDut`: the run stays within
the budget and produces an all-zero output image. -/
theorem C7_budget_and_zero_output_witness :
    (∀ (i : DutIn) (st : Unit), (stubDut.eval i st).2.m_axis_tvalid = false) ∧
    ((mainRun stubDut () 1).cycle_count ≤ 1000000 ∧
      ¬ loopGuard (mainRun stubDut () 1) ∧
      ∀ j, (mainRun stubDut () 1).output_image.get j = 0) := by
  obtain ⟨h1, h2, h3⟩ := C7_budget_and_zero_output stubDut () 1
  exact ⟨fun i st => rfl, h1, h2, h3 (fun i st => rfl)⟩

end ISP

